import Mathlib

set_option maxRecDepth 8000

namespace AIDataFactory

/- ===================== Frontend data model =====================
   Shallow embedding of src/frontend/src/lib/types.ts and api.ts. -/

/-- Job status union from src/frontend/src/lib/types.ts line 15:
pending, running, completed, failed, cancelled. -/
inductive JobStatus
  | pending
  | running
  | completed
  | failed
  | cancelled
  deriving DecidableEq, Repr, Fintype

/-- An HTTP response as the frontend api client observes it: the ok flag,
the raw body text, and the detail message that the request helper would
throw for it (abstracting the parsed JSON detail field with the
statusText and status-code fallbacks of api.ts lines 19-20). -/
structure HttpResponse where
  ok : Bool
  bodyText : String
  detail : String
  deriving DecidableEq, Repr

/-- The request helper of src/frontend/src/lib/api.ts lines 13-23: on a
non-ok response it throws an Error carrying the detail message, otherwise
it resolves with the response body. -/
def request (r : HttpResponse) : Except String String :=
  if r.ok then Except.ok r.bodyText else Except.error r.detail

/-- api.getDatasetCard (api.ts lines 55-56): a raw fetch followed by
r.text, with no ok check, so it resolves with the body text of every
response, error responses included. -/
def getDatasetCard (r : HttpResponse) : Except String String :=
  Except.ok r.bodyText

/-- How an api client operation reaches the network: through the request
helper (throws on non-ok), through a raw fetch resolved as text, or by
building a URL string without fetching at all. -/
inductive FetchMechanism
  | requestHelper
  | rawText
  | noFetch
  deriving DecidableEq, Repr

/-- The operations defined on the api client object of
src/frontend/src/lib/api.ts lines 25-71, each with its fetch mechanism. -/
def apiOperations : List (String × FetchMechanism) :=
  [("getProjects", FetchMechanism.requestHelper),
   ("getProject", FetchMechanism.requestHelper),
   ("createProject", FetchMechanism.requestHelper),
   ("deleteProject", FetchMechanism.requestHelper),
   ("getJobs", FetchMechanism.requestHelper),
   ("getJob", FetchMechanism.requestHelper),
   ("createJob", FetchMechanism.requestHelper),
   ("cancelJob", FetchMechanism.requestHelper),
   ("getExports", FetchMechanism.requestHelper),
   ("getDatasetCard", FetchMechanism.rawText),
   ("getDownloadUrl", FetchMechanism.noFetch),
   ("getOverview", FetchMechanism.requestHelper),
   ("getCosts", FetchMechanism.requestHelper),
   ("getTemplates", FetchMechanism.requestHelper),
   ("getTemplate", FetchMechanism.requestHelper)]

/-- The operations of the extended api client variant in
src/unnamed/part_005 lines 31-108: the same operations plus the push,
custom-template, comparison and settings operations, all of which go
through the request helper. -/
def apiOperationsExtended : List (String × FetchMechanism) :=
  apiOperations ++
  [("pushToHuggingFace", FetchMechanism.requestHelper),
   ("getCustomTemplates", FetchMechanism.requestHelper),
   ("getCustomTemplate", FetchMechanism.requestHelper),
   ("createCustomTemplate", FetchMechanism.requestHelper),
   ("updateCustomTemplate", FetchMechanism.requestHelper),
   ("deleteCustomTemplate", FetchMechanism.requestHelper),
   ("compareJobs", FetchMechanism.requestHelper),
   ("getSettings", FetchMechanism.requestHelper)]

/-- Operation name invoked by handleRetry on the job detail page
(src/frontend/src/app/jobs/[id]/page.tsx line 63: api.retryJob). -/
def handleRetryInvokes : String := "retryJob"

/-- Guard of the Retry button on the job detail page (page.tsx line 125):
shown when the job status is failed or cancelled. -/
def retryOffered (s : JobStatus) : Bool :=
  s == JobStatus.failed || s == JobStatus.cancelled

/-- Guard of the Cancel button on the job detail page (page.tsx line 115):
shown when the job status is running. -/
def cancelOffered (s : JobStatus) : Bool := s == JobStatus.running

/- ===================== SSE subscriber =====================
   Shallow embedding of the useSSE hook (src/frontend/src/hooks, carried
   in useProjects.ts lines 111-160). -/

/-- A PipelineProgress event as the onmessage handler receives it at
runtime: JSON.parse is unchecked, so the status field is whatever string
the publisher put there. The declared union in types.ts lines 72-77
lists running, completed and failed. -/
structure PipelineProgress where
  stage : String
  progress : ℚ
  status : String
  error : Option String
  deriving DecidableEq, Repr

/-- The subscriber state of useSSE: the last stored event, the connected
flag, and whether the EventSource stream is still open. -/
structure SSEState where
  progress : Option PipelineProgress
  connected : Bool
  streamOpen : Bool
  deriving DecidableEq, Repr

/-- The es.onmessage handler of useSSE (useProjects.ts lines 131-143):
store the parsed event, then close the stream and clear the connected
flag when the event status is completed or failed. -/
def onMessage (st : SSEState) (e : PipelineProgress) : SSEState :=
  let st1 : SSEState := { st with progress := some e }
  if e.status == "completed" || e.status == "failed" then
    { st1 with streamOpen := false, connected := false }
  else st1

/-- The terminal job statuses of the Job status enum. -/
def terminalStatusStrings : List String := ["completed", "failed", "cancelled"]

/- ===================== Pipeline visualizer =====================
   Shallow embedding of PipelineVisualizer.tsx. -/

/-- The keys of the stages array of PipelineVisualizer.tsx lines 20-26. -/
def stages : List String := ["spider", "refiner", "factory", "inspector", "shipper"]

/-- Per-stage display status (PipelineVisualizer.tsx line 28). -/
inductive StageStatus
  | pending
  | active
  | completed
  | failed
  deriving DecidableEq, Repr

/-- stages.findIndex on the stage key (PipelineVisualizer.tsx line 49),
unrolled over the fixed five-entry stages array: index of the first
matching key, -1 when the key is absent. -/
def stagesFindIndex (key : String) : Int :=
  if "spider" == key then 0
  else if "refiner" == key then 1
  else if "factory" == key then 2
  else if "inspector" == key then 3
  else if "shipper" == key then 4
  else -1

/-- getStageStatus of PipelineVisualizer.tsx lines 36-60. The two
branches of the null-currentStage case in the source both return
pending, and an empty-string currentStage hits findIndex, which returns
-1 and yields pending for every stage, the same display. -/
def getStageStatus (stageIndex : Int) (currentStage : Option String)
    (jobStatus : JobStatus) : StageStatus :=
  if jobStatus = JobStatus.completed then StageStatus.completed
  else if jobStatus = JobStatus.cancelled then StageStatus.pending
  else
    match currentStage with
    | none => StageStatus.pending
    | some cs =>
      let currentIndex := stagesFindIndex cs
      if jobStatus = JobStatus.failed then
        if stageIndex < currentIndex then StageStatus.completed
        else if stageIndex = currentIndex then StageStatus.failed
        else StageStatus.pending
      else
        if stageIndex < currentIndex then StageStatus.completed
        else if stageIndex = currentIndex then StageStatus.active
        else StageStatus.pending

/-- The list of per-stage display statuses over the five stages in order,
as the PipelineVisualizer render loop computes them. -/
def stageStatuses (currentStage : Option String) (jobStatus : JobStatus) :
    List StageStatus :=
  (List.range stages.length).map
    (fun i => getStageStatus (Int.ofNat i) currentStage jobStatus)

/-- True when every entry is pending. -/
def allPendingList : List StageStatus → Bool
  | [] => true
  | StageStatus.pending :: rest => allPendingList rest
  | _ => false

/-- True when the list matches: zero or more completed, then at most one
active or failed, then zero or more pending. -/
def isMonotonePattern : List StageStatus → Bool
  | [] => true
  | StageStatus.completed :: rest => isMonotonePattern rest
  | StageStatus.active :: rest => allPendingList rest
  | StageStatus.failed :: rest => allPendingList rest
  | StageStatus.pending :: rest => allPendingList rest

/- ===================== Orchestration core =====================
   The backend pipeline engine is not present in the repository sources:
   only the design document (src/unnamed/part_006, tasks 20-22) and the
   frontend describe it. The definitions below are modelled from the
   spec (sections 3, 4.3, 4.5) and that design document. -/

/-- Items are opaque to the orchestration core; only a stable identifier
is visible (spec section 3, Item). -/
abbrev Item := Nat

/-- Modelled from the spec: a Stage Contract outcome (spec section 4.1)
bundles the surviving items, the per-item failures, and an optional
fatal non-item-level error; the backend stage implementations are absent
from the repository sources. -/
structure StageOutcome where
  survivors : List Item
  failures : List Item
  fatalError : Option String
  deriving DecidableEq, Repr

/-- Modelled from the spec: a registered pipeline stage, a name plus a
process function (spec section 4.1); the backend stage registry is
absent from the repository sources. -/
structure PipelineStage where
  name : String
  process : List Item → StageOutcome

/-- Modelled from the spec: the stage failure ratio of spec section 4.5
step d, failed items over items processed by the stage. -/
def failureRatio (out : StageOutcome) : ℚ :=
  let total := out.survivors.length + out.failures.length
  if total = 0 then 0 else (out.failures.length : ℚ) / (total : ℚ)

/-- Modelled from the spec: the per-job configuration carries the
abort-threshold fraction (spec section 6, abort_threshold). -/
structure OrchestratorConfig where
  abortThreshold : ℚ

/-- The Job record fields the orchestrator persists, matching the Job
schema of types.ts lines 12-24 and the design document db model: status,
current stage (index and name), progress on the 0-100 scale, and the
optional error message. -/
structure JobRecord where
  status : JobStatus
  stageIdx : Option Nat
  stageName : Option String
  progress : ℚ
  error : Option String
  deriving DecidableEq, Repr

/-- Modelled from the spec: a progress event streamed to subscribers
(spec section 3, ProgressEvent). Per the design document task 22, the
streamed payload carries the completed fraction on the 0-1 scale (the
documented payload example is progress 0.45). -/
structure OrchestratorEvent where
  stage : String
  progress : ℚ
  status : JobStatus
  deriving DecidableEq, Repr

/-- The outcome of one orchestrator run: the final Job record, the
persisted record snapshots in order, the published events in order, and
the invoked stages (index and stage outcome) in order. -/
structure RunResult where
  final : JobRecord
  snaps : List JobRecord
  events : List OrchestratorEvent
  invoked : List (Nat × StageOutcome)

/-- The event published alongside a persisted record: same stage and
status, progress as the completed fraction, record progress over 100. -/
def toEvent (j : JobRecord) : OrchestratorEvent :=
  { stage := j.stageName.getD "", progress := j.progress / 100, status := j.status }

/-- Modelled from the spec: the orchestrator stage loop of spec section
4.5 steps 2-3, from stage index i with the surviving input items and the
current persisted record j. Between stage boundaries it checks the
cancellation flag; it invokes the stage, fails the job on a fatal error
or when the failure ratio exceeds the abort threshold, otherwise
persists the new progress and next stage and continues; after the last
stage it transitions to Completed. It returns the final record and the
snapshots, events and invoked stages produced from this point on. The
backend orchestrator is absent from the repository sources. -/
def runLoop (cfg : OrchestratorConfig) (cancel : Nat → Bool) (total : Nat) :
    List PipelineStage → Nat → List Item → JobRecord → RunResult
  | [], _, _, j =>
    let jc : JobRecord := { j with status := JobStatus.completed, progress := 100 }
    ⟨jc, [jc], [toEvent jc], []⟩
  | s :: rest, i, items, j =>
    if cancel i then
      let jx : JobRecord := { j with status := JobStatus.cancelled }
      ⟨jx, [jx], [toEvent jx], []⟩
    else
      let out := s.process items
      match out.fatalError with
      | some msg =>
        let jf : JobRecord := { j with status := JobStatus.failed, error := some msg }
        ⟨jf, [jf], [toEvent jf], [(i, out)]⟩
      | none =>
        if cfg.abortThreshold < failureRatio out then
          let jf : JobRecord :=
            { j with
              status := JobStatus.failed,
              error := some "stage failure ratio exceeded abort threshold" }
          ⟨jf, [jf], [toEvent jf], [(i, out)]⟩
        else
          match rest with
          | [] =>
            let jc : JobRecord := { j with status := JobStatus.completed, progress := 100 }
            ⟨jc, [jc], [toEvent jc], [(i, out)]⟩
          | s2 :: rest2 =>
            let jn : JobRecord :=
              { j with
                stageIdx := some (i + 1),
                stageName := some s2.name,
                progress := 100 * ((i : ℚ) + 1) / (total : ℚ) }
            let r := runLoop cfg cancel total (s2 :: rest2) (i + 1) out.survivors jn
            ⟨r.final, jn :: r.snaps, toEvent jn :: r.events, (i, out) :: r.invoked⟩

/-- Modelled from the spec: a full orchestrator run for one claimed job
(spec section 4.5): the Pending record written by Admission, the
transition to Running at the first stage (persisted and published), then
the stage loop. The backend orchestrator is absent from the repository
sources. -/
def runOrchestrator (cfg : OrchestratorConfig) (regs : List PipelineStage)
    (cancel : Nat → Bool) (input : List Item) : RunResult :=
  let j0 : JobRecord :=
    { status := JobStatus.pending, stageIdx := none, stageName := none,
      progress := 0, error := none }
  let j1 : JobRecord :=
    { j0 with
      status := JobStatus.running, stageIdx := some 0,
      stageName := regs.head?.map PipelineStage.name }
  let r := runLoop cfg cancel regs.length regs 0 input j1
  ⟨r.final, j0 :: j1 :: r.snaps, toEvent j1 :: r.events, r.invoked⟩

/-- The allowed transitions of the spec section 4.5 state machine:
Pending to Running(stage 0), Running(stage i) to Running(stage i+1), and
Running to each terminal status. -/
def allowedStep (a b : JobRecord) : Bool :=
  match a.status, a.stageIdx, b.status, b.stageIdx with
  | JobStatus.pending, none, JobStatus.running, some k => k == 0
  | JobStatus.running, some i, JobStatus.running, some k => k == i + 1
  | JobStatus.running, some _, JobStatus.completed, _ => true
  | JobStatus.running, some _, JobStatus.failed, _ => true
  | JobStatus.running, some _, JobStatus.cancelled, _ => true
  | _, _, _, _ => false

/-- True when every adjacent pair of persisted records is an allowed
state-machine transition. -/
def machineOk : List JobRecord → Bool
  | a :: b :: rest => allowedStep a b && machineOk (b :: rest)
  | _ => true

/-- True when the list of progress values is non-decreasing. -/
def monoProgress : List ℚ → Bool
  | a :: b :: rest => decide (a ≤ b) && monoProgress (b :: rest)
  | _ => true

/-- The substituted progress of the job detail page (page.tsx line 47):
the most recent streamed value when present, else the Job record value,
else 0. -/
def currentProgress (ssePr : Option ℚ) (jobPr : Option ℚ) : ℚ :=
  match ssePr with
  | some x => x
  | none =>
    match jobPr with
    | some x => x
    | none => 0

/- ===================== Partial-Result Ledger =====================
   Modelled from the spec: the backend ledger is absent from the
   repository sources (spec sections 3 and 4.3). -/

/-- Modelled from the spec: the ledger key (job id, stage name, item id)
of spec section 4.3. -/
structure LedgerKey where
  jobId : Nat
  stageName : String
  itemId : Nat
  deriving DecidableEq, Repr

/-- Outcome kinds of a ledger entry (spec section 3, StageOutcome). -/
inductive OutcomeKind
  | success
  | failed
  | retried
  deriving DecidableEq, Repr

/-- Modelled from the spec: one ledger entry (spec section 3): key,
outcome, error detail, attempt count, timestamp. -/
structure LedgerEntry where
  key : LedgerKey
  outcome : OutcomeKind
  errorDetail : Option String
  attempts : Nat
  timestamp : Nat
  deriving DecidableEq, Repr

/-- Modelled from the spec: record appends an outcome to the append-only
log (spec section 4.3); nothing is updated in place. -/
def record (ledger : List LedgerEntry) (e : LedgerEntry) : List LedgerEntry :=
  ledger ++ [e]

/-- Modelled from the spec: the current truth for an item is its most
recent entry (spec section 3), here the first match of the reversed log. -/
def latestOutcome (ledger : List LedgerEntry) (k : LedgerKey) : Option LedgerEntry :=
  ledger.reverse.find? (fun e => e.key == k)

/- ===================== Concrete demonstration data ===================== -/

/-- Ten input items, the worked example of spec section 8. -/
def demoInput : List Item := List.range 10

/-- A first stage that permanently fails six of its ten items. -/
def demoFailingStage : PipelineStage :=
  { name := "spider",
    process := fun items =>
      { survivors := items.take 4, failures := items.drop 4, fatalError := none } }

/-- A stage that passes every item through. -/
def demoPassStage (nm : String) : PipelineStage :=
  { name := nm,
    process := fun items => { survivors := items, failures := [], fatalError := none } }

/-- A fifty percent abort threshold. -/
def demoCfg : OrchestratorConfig := { abortThreshold := 1 / 2 }

/-- The outcome the failing demo stage produces on the demo input. -/
def demoOutcome : StageOutcome := demoFailingStage.process demoInput

/-- A two-stage registry whose first stage fails six of ten items. -/
def demoAbortRegistry : List PipelineStage :=
  [demoFailingStage, demoPassStage "refiner"]

/-- A two-stage registry whose stages pass every item. -/
def demoPassRegistry : List PipelineStage :=
  [demoPassStage "spider", demoPassStage "refiner"]

/-- A cancellation flag that is never set. -/
def demoNoCancel : Nat → Bool := fun _ => false

/-- The Pending record Admission writes before a run. -/
def demoPendingJob : JobRecord := ⟨JobStatus.pending, none, none, 0, none⟩

/-- The Running record persisted at the first stage of the pass registry. -/
def demoRunningJob : JobRecord :=
  ⟨JobStatus.running, some 0, demoPassRegistry.head?.map PipelineStage.name, 0, none⟩

/-- A cancellation flag that is already set at the first stage boundary. -/
def demoCancelNow : Nat → Bool := fun _ => true

/- ===================== Theorems ===================== -/

theorem stagesFindIndex_cases (key : String) :
    stagesFindIndex key = -1 ∨ stagesFindIndex key = 0 ∨ stagesFindIndex key = 1 ∨
      stagesFindIndex key = 2 ∨ stagesFindIndex key = 3 ∨ stagesFindIndex key = 4 := by
  unfold stagesFindIndex
  split_ifs <;> simp

/-- C9: for every job status and every current-stage value, including null and
unknown stage names, the per-stage display statuses computed by getStageStatus
over the five pipeline stages in order match the pattern: zero or more
completed, then at most one active or failed, then zero or more pending. -/
theorem C9_stage_display_pattern (currentStage : Option String)
    (jobStatus : JobStatus) :
    isMonotonePattern (stageStatuses currentStage jobStatus) = true := by
  cases currentStage with
  | none => cases jobStatus <;> decide
  | some key =>
    rcases stagesFindIndex_cases key with h | h | h | h | h | h <;>
      cases jobStatus <;>
        simp only [stageStatuses, getStageStatus, h] <;> decide

/-- C10: getDatasetCard resolves with the response body text for every
response, error responses included, while every other api-client operation
that performs a fetch goes through the request helper, which throws the
detail message whenever the response is not ok; so on a failing request the
error body is returned as if it were the dataset card. -/
theorem C10_dataset_card_error_passthrough :
    (∀ r : HttpResponse, getDatasetCard r = Except.ok r.bodyText) ∧
    (∀ r : HttpResponse, r.ok = false → request r = Except.error r.detail) ∧
    (("getDatasetCard", FetchMechanism.rawText) ∈ apiOperations) ∧
    (∀ p ∈ apiOperationsExtended, p.1 ≠ "getDatasetCard" →
      p.2 = FetchMechanism.requestHelper ∨ p.2 = FetchMechanism.noFetch) ∧
    (getDatasetCard { ok := false, bodyText := "Internal Server Error", detail := "HTTP 500" }
      = Except.ok "Internal Server Error") := by
  refine ⟨fun r => rfl, fun r h => by simp [request, h], by decide, by decide, rfl⟩

/-- Witness for C10 at a concrete failing response. -/
theorem C10_dataset_card_error_passthrough_witness :
    request { ok := false, bodyText := "body", detail := "Project not found" }
      = Except.error "Project not found" :=
  C10_dataset_card_error_passthrough.2.1
    { ok := false, bodyText := "body", detail := "Project not found" } rfl

/-- C2 is contradicted by the code: the Retry button on the job detail page is
offered exactly for failed and cancelled jobs and its handler invokes
api.retryJob, but neither api client variant defines a retryJob operation, so
the invoked retry operation does not exist. -/
theorem C2_retry_operation_undefined :
    (∀ s : JobStatus,
      retryOffered s = true ↔ (s = JobStatus.failed ∨ s = JobStatus.cancelled)) ∧
    (apiOperations.map Prod.fst).contains handleRetryInvokes = false ∧
    (apiOperationsExtended.map Prod.fst).contains handleRetryInvokes = false := by
  decide

/-- C3 as stated is false on the code: cancelled is a terminal job status, yet
an event carrying it does not close the stream, because the onmessage handler
closes only on completed and failed. -/
theorem C3_counterexample_cancelled_event_leaves_stream_open :
    "cancelled" ∈ terminalStatusStrings ∧
    (onMessage { progress := none, connected := true, streamOpen := true }
      { stage := "factory", progress := 1 / 2, status := "cancelled", error := none
      }).streamOpen = true := by
  exact ⟨by decide, rfl⟩

/-- C3 amended: the subscriber stores each received event, and the stream is
closed after processing an event exactly when the event status is completed or
failed, or the stream was closed already; a cancelled status does not close
it. -/
theorem C3_amended_close_on_completed_or_failed (st : SSEState)
    (e : PipelineProgress) :
    (onMessage st e).progress = some e ∧
    ((onMessage st e).streamOpen = false ↔
      (e.status = "completed" ∨ e.status = "failed" ∨ st.streamOpen = false)) := by
  unfold onMessage
  by_cases h1 : e.status = "completed"
  · simp [h1]
  · by_cases h2 : e.status = "failed"
    · simp [h2]
    · simp [h1, h2]

theorem runLoop_cancelled (cfg : OrchestratorConfig) (cancel : Nat → Bool)
    (total : Nat) (s : PipelineStage) (rest : List PipelineStage) (i : Nat)
    (items : List Item) (j : JobRecord) (hc : cancel i = true) :
    (runLoop cfg cancel total (s :: rest) i items j).final
      = { j with status := JobStatus.cancelled } := by
  rw [runLoop]
  simp [hc]

theorem runLoop_invoked_ge (cfg : OrchestratorConfig) (cancel : Nat → Bool)
    (total : Nat) :
    ∀ (regs : List PipelineStage) (i : Nat) (items : List Item) (j : JobRecord)
      (k : Nat) (o : StageOutcome),
      (k, o) ∈ (runLoop cfg cancel total regs i items j).invoked → i ≤ k := by
  intro regs
  induction regs with
  | nil =>
    intro i items j k o h
    rw [runLoop] at h
    simp at h
  | cons s rest ih =>
    intro i items j k o h
    rw [runLoop] at h
    by_cases hc : cancel i = true
    · simp [hc] at h
    · simp only [hc, if_false, Bool.false_eq_true] at h
      cases hout : (s.process items).fatalError with
      | some msg =>
        simp [hout] at h
        omega
      | none =>
        simp only [hout] at h
        by_cases hr : cfg.abortThreshold < failureRatio (s.process items)
        · simp [hr] at h
          omega
        · simp only [hr, if_false] at h
          cases rest with
          | nil =>
            simp at h
            omega
          | cons s2 rest2 =>
            simp at h
            rcases h with ⟨hk, _⟩ | hmem
            · omega
            · have := ih (i + 1) (s.process items).survivors _ k o hmem
              omega

theorem runLoop_abort (cfg : OrchestratorConfig) (cancel : Nat → Bool)
    (total : Nat) :
    ∀ (regs : List PipelineStage) (i : Nat) (items : List Item) (j : JobRecord)
      (k : Nat) (o : StageOutcome),
      (k, o) ∈ (runLoop cfg cancel total regs i items j).invoked →
      cfg.abortThreshold < failureRatio o →
      (runLoop cfg cancel total regs i items j).final.status = JobStatus.failed ∧
      (runLoop cfg cancel total regs i items j).final.error ≠ none ∧
      ∀ (l : Nat) (o2 : StageOutcome),
        (l, o2) ∈ (runLoop cfg cancel total regs i items j).invoked → l ≤ k := by
  intro regs
  induction regs with
  | nil =>
    intro i items j k o h habort
    rw [runLoop] at h
    simp at h
  | cons s rest ih =>
    intro i items j k o h habort
    rw [runLoop] at h ⊢
    by_cases hc : cancel i = true
    · simp [hc] at h
    · simp only [hc, if_false, Bool.false_eq_true] at h ⊢
      cases hout : (s.process items).fatalError with
      | some msg =>
        simp only [hout] at h ⊢
        simp at h
        simp [h]
      | none =>
        simp only [hout] at h ⊢
        by_cases hr : cfg.abortThreshold < failureRatio (s.process items)
        · simp only [hr, if_true] at h ⊢
          simp at h
          simp [h]
        · simp only [hr, if_false] at h ⊢
          cases rest with
          | nil =>
            simp at h
            rcases h with ⟨_, ho⟩
            rw [ho] at habort
            exact absurd habort hr
          | cons s2 rest2 =>
            simp at h ⊢
            rcases h with ⟨_, ho⟩ | hmem
            · rw [ho] at habort
              exact absurd habort hr
            · have hrec := ih (i + 1) (s.process items).survivors _ k o hmem habort
              have hge := runLoop_invoked_ge cfg cancel total _ (i + 1)
                (s.process items).survivors _ k o hmem
              refine ⟨hrec.1, hrec.2.1, ?_⟩
              intro l o2 hl
              rcases hl with ⟨hl, _⟩ | hl
              · omega
              · exact hrec.2.2 l o2 hl

theorem runLoop_events_eq (cfg : OrchestratorConfig) (cancel : Nat → Bool)
    (total : Nat) :
    ∀ (regs : List PipelineStage) (i : Nat) (items : List Item) (j : JobRecord),
      (runLoop cfg cancel total regs i items j).events =
        (runLoop cfg cancel total regs i items j).snaps.map toEvent := by
  intro regs
  induction regs with
  | nil =>
    intro i items j
    rw [runLoop]
    simp
  | cons s rest ih =>
    intro i items j
    rw [runLoop]
    by_cases hc : cancel i = true
    · simp [hc]
    · simp only [hc, if_false, Bool.false_eq_true]
      cases hout : (s.process items).fatalError with
      | some msg => simp
      | none =>
        simp only
        by_cases hr : cfg.abortThreshold < failureRatio (s.process items)
        · simp [hr]
        · simp only [hr, if_false]
          cases rest with
          | nil => simp
          | cons s2 rest2 =>
            simp only [List.map_cons]
            rw [ih]

theorem runLoop_machine (cfg : OrchestratorConfig) (cancel : Nat → Bool)
    (total : Nat) :
    ∀ (regs : List PipelineStage) (i : Nat) (items : List Item) (j : JobRecord),
      j.status = JobStatus.running → j.stageIdx = some i →
      machineOk (j :: (runLoop cfg cancel total regs i items j).snaps) = true := by
  intro regs
  induction regs with
  | nil =>
    intro i items j hst hidx
    rw [runLoop]
    simp [machineOk, allowedStep, hst, hidx]
  | cons s rest ih =>
    intro i items j hst hidx
    rw [runLoop]
    by_cases hc : cancel i = true
    · simp [hc, machineOk, allowedStep, hst, hidx]
    · simp only [hc, if_false, Bool.false_eq_true]
      cases hout : (s.process items).fatalError with
      | some msg => simp [machineOk, allowedStep, hst, hidx]
      | none =>
        simp only
        by_cases hr : cfg.abortThreshold < failureRatio (s.process items)
        · simp [hr, machineOk, allowedStep, hst, hidx]
        · simp only [hr, if_false]
          cases rest with
          | nil => simp [machineOk, allowedStep, hst, hidx]
          | cons s2 rest2 =>
            simp only [machineOk, Bool.and_eq_true]
            constructor
            · simp [allowedStep, hst, hidx]
            · exact ih (i + 1) (s.process items).survivors _ hst rfl

theorem runLoop_progress (cfg : OrchestratorConfig) (cancel : Nat → Bool) :
    ∀ (regs : List PipelineStage) (total i : Nat) (items : List Item) (j : JobRecord),
      i + regs.length = total →
      0 ≤ j.progress →
      j.progress ≤ 100 * (i : ℚ) / (total : ℚ) →
      j.progress ≤ 100 →
      monoProgress (j.progress ::
        (runLoop cfg cancel total regs i items j).snaps.map JobRecord.progress) = true ∧
      ∀ r ∈ (runLoop cfg cancel total regs i items j).snaps,
        0 ≤ r.progress ∧ r.progress ≤ 100 := by
  intro regs
  induction regs with
  | nil =>
    intro total i items j hlen hp0 hpv hp1
    rw [runLoop]
    constructor
    · simp [monoProgress, hp1]
    · intro r hr
      simp at hr
      subst hr
      norm_num
  | cons s rest ih =>
    intro total i items j hlen hp0 hpv hp1
    rw [runLoop]
    by_cases hc : cancel i = true
    · simp only [hc, if_true]
      constructor
      · simp [monoProgress]
      · intro r hr
        simp at hr
        subst hr
        exact ⟨hp0, hp1⟩
    · simp only [hc, if_false, Bool.false_eq_true]
      cases hout : (s.process items).fatalError with
      | some msg =>
        simp only
        constructor
        · simp [monoProgress]
        · intro r hr
          simp at hr
          subst hr
          exact ⟨hp0, hp1⟩
      | none =>
        simp only
        by_cases hr2 : cfg.abortThreshold < failureRatio (s.process items)
        · simp only [hr2, if_true]
          constructor
          · simp [monoProgress]
          · intro r hr
            simp at hr
            subst hr
            exact ⟨hp0, hp1⟩
        · simp only [hr2, if_false]
          cases rest with
          | nil =>
            simp only
            constructor
            · simp [monoProgress, hp1]
            · intro r hr
              simp at hr
              subst hr
              norm_num
          | cons s2 rest2 =>
            have htotpos : 0 < total := by
              simp only [List.length_cons] at hlen
              omega
            have htq : (0 : ℚ) < (total : ℚ) := by exact_mod_cast htotpos
            have hi1 : i + 1 ≤ total := by
              simp only [List.length_cons] at hlen
              omega
            have hiq : (i : ℚ) + 1 ≤ (total : ℚ) := by exact_mod_cast hi1
            have hstep : 100 * (i : ℚ) / (total : ℚ) ≤
                100 * ((i : ℚ) + 1) / (total : ℚ) := by
              gcongr
              linarith
            have hnew1 : j.progress ≤ 100 * ((i : ℚ) + 1) / (total : ℚ) :=
              hpv.trans hstep
            have hnew0 : (0 : ℚ) ≤ 100 * ((i : ℚ) + 1) / (total : ℚ) := by positivity
            have hnewto : 100 * ((i : ℚ) + 1) / (total : ℚ) ≤ 100 := by
              rw [div_le_iff₀ htq]
              linarith
            have hlen2 : (i + 1) + (s2 :: rest2).length = total := by
              simp only [List.length_cons] at hlen ⊢
              omega
            have hstep2 : (100 : ℚ) * ((i : ℚ) + 1) / (total : ℚ) ≤
                100 * ((i + 1 : ℕ) : ℚ) / (total : ℚ) := by
              push_cast
              exact le_refl _
            have hb := ih total (i + 1) (s.process items).survivors
              { j with
                stageIdx := some (i + 1),
                stageName := some s2.name,
                progress := 100 * ((i : ℚ) + 1) / (total : ℚ) }
              hlen2 hnew0 hstep2 hnewto
            simp only [List.map_cons]
            constructor
            · rw [monoProgress]
              simp only [Bool.and_eq_true, decide_eq_true_eq]
              exact ⟨hnew1, hb.1⟩
            · intro r hr
              rcases List.mem_cons.mp hr with hr | hr
              · subst hr
                exact ⟨hnew0, hnewto⟩
              · exact hb.2 r hr

theorem monoProgress_map_div (l : List ℚ) (h : monoProgress l = true) :
    monoProgress (l.map (fun x => x / 100)) = true := by
  induction l with
  | nil => rfl
  | cons a t ih =>
    cases t with
    | nil => rfl
    | cons b t2 =>
      rw [monoProgress] at h
      simp only [Bool.and_eq_true, decide_eq_true_eq] at h
      simp only [List.map_cons]
      rw [monoProgress]
      simp only [Bool.and_eq_true, decide_eq_true_eq]
      refine ⟨by linarith [h.1], ?_⟩
      have := ih h.2
      simpa using this

/-- C1 (spec-modelled orchestrator): whenever an invoked stage produces an
outcome whose failure ratio exceeds the configured abort threshold, the run
ends with the job Failed, the error recorded on the Job record, and no later
stage is ever invoked. -/
theorem C1_abort_threshold_fails_job (cfg : OrchestratorConfig)
    (regs : List PipelineStage) (cancel : Nat → Bool) (input : List Item)
    (k : Nat) (o : StageOutcome)
    (hmem : (k, o) ∈ (runOrchestrator cfg regs cancel input).invoked)
    (habort : cfg.abortThreshold < failureRatio o) :
    (runOrchestrator cfg regs cancel input).final.status = JobStatus.failed ∧
    (runOrchestrator cfg regs cancel input).final.error ≠ none ∧
    ∀ (l : Nat) (o2 : StageOutcome),
      (l, o2) ∈ (runOrchestrator cfg regs cancel input).invoked → l ≤ k := by
  simp only [runOrchestrator] at hmem ⊢
  exact runLoop_abort cfg cancel regs.length regs 0 input _ k o hmem habort

theorem runLoop_step_abort (cfg : OrchestratorConfig) (cancel : Nat → Bool)
    (total : Nat) (s : PipelineStage) (rest : List PipelineStage) (i : Nat)
    (items : List Item) (j : JobRecord)
    (hc : cancel i = false)
    (hf : (s.process items).fatalError = none)
    (hr : cfg.abortThreshold < failureRatio (s.process items)) :
    runLoop cfg cancel total (s :: rest) i items j =
      ⟨{ j with
          status := JobStatus.failed,
          error := some "stage failure ratio exceeded abort threshold" },
       [{ j with
          status := JobStatus.failed,
          error := some "stage failure ratio exceeded abort threshold" }],
       [toEvent { j with
          status := JobStatus.failed,
          error := some "stage failure ratio exceeded abort threshold" }],
       [(i, s.process items)]⟩ := by
  rw [runLoop]
  simp only [hc, Bool.false_eq_true, if_false, hf]
  rw [if_pos hr]

theorem runLoop_step_continue (cfg : OrchestratorConfig) (cancel : Nat → Bool)
    (total : Nat) (s s2 : PipelineStage) (rest2 : List PipelineStage) (i : Nat)
    (items : List Item) (j : JobRecord)
    (hc : cancel i = false)
    (hf : (s.process items).fatalError = none)
    (hr : ¬ cfg.abortThreshold < failureRatio (s.process items)) :
    runLoop cfg cancel total (s :: s2 :: rest2) i items j =
      ⟨(runLoop cfg cancel total (s2 :: rest2) (i + 1) (s.process items).survivors
          { j with
            stageIdx := some (i + 1), stageName := some s2.name,
            progress := 100 * ((i : ℚ) + 1) / (total : ℚ) }).final,
       { j with
          stageIdx := some (i + 1), stageName := some s2.name,
          progress := 100 * ((i : ℚ) + 1) / (total : ℚ) } ::
         (runLoop cfg cancel total (s2 :: rest2) (i + 1) (s.process items).survivors
          { j with
            stageIdx := some (i + 1), stageName := some s2.name,
            progress := 100 * ((i : ℚ) + 1) / (total : ℚ) }).snaps,
       toEvent { j with
          stageIdx := some (i + 1), stageName := some s2.name,
          progress := 100 * ((i : ℚ) + 1) / (total : ℚ) } ::
         (runLoop cfg cancel total (s2 :: rest2) (i + 1) (s.process items).survivors
          { j with
            stageIdx := some (i + 1), stageName := some s2.name,
            progress := 100 * ((i : ℚ) + 1) / (total : ℚ) }).events,
       (i, s.process items) ::
         (runLoop cfg cancel total (s2 :: rest2) (i + 1) (s.process items).survivors
          { j with
            stageIdx := some (i + 1), stageName := some s2.name,
            progress := 100 * ((i : ℚ) + 1) / (total : ℚ) }).invoked⟩ := by
  rw [runLoop]
  simp only [hc, Bool.false_eq_true, if_false, hf]
  rw [if_neg hr]

theorem runLoop_step_last (cfg : OrchestratorConfig) (cancel : Nat → Bool)
    (total : Nat) (s : PipelineStage) (i : Nat) (items : List Item) (j : JobRecord)
    (hc : cancel i = false)
    (hf : (s.process items).fatalError = none)
    (hr : ¬ cfg.abortThreshold < failureRatio (s.process items)) :
    runLoop cfg cancel total [s] i items j =
      ⟨{ j with status := JobStatus.completed, progress := 100 },
       [{ j with status := JobStatus.completed, progress := 100 }],
       [toEvent { j with status := JobStatus.completed, progress := 100 }],
       [(i, s.process items)]⟩ := by
  rw [runLoop]
  simp only [hc, Bool.false_eq_true, if_false, hf]
  rw [if_neg hr]

theorem demoOutcome_eval :
    demoOutcome =
      { survivors := [0, 1, 2, 3], failures := [4, 5, 6, 7, 8, 9],
        fatalError := none } := by
  decide

theorem demo_failureRatio : failureRatio demoOutcome = 3 / 5 := by
  rw [demoOutcome_eval]
  simp only [failureRatio]
  norm_num

theorem demo_abort_lt : demoCfg.abortThreshold < failureRatio demoOutcome := by
  rw [demo_failureRatio]
  norm_num [demoCfg]

theorem demo_abort_invoked :
    (runOrchestrator demoCfg demoAbortRegistry demoNoCancel demoInput).invoked
      = [(0, demoOutcome)] := by
  simp only [runOrchestrator, demoAbortRegistry]
  rw [runLoop_step_abort demoCfg demoNoCancel _ demoFailingStage
    [demoPassStage "refiner"] 0 demoInput _ rfl rfl demo_abort_lt]
  rfl

/-- Witness for C1: the worked example of the spec, stage 1 permanently
failing six of ten items against a fifty percent threshold. -/
theorem C1_abort_threshold_fails_job_witness :
    (runOrchestrator demoCfg demoAbortRegistry demoNoCancel demoInput).final.status
        = JobStatus.failed ∧
    (runOrchestrator demoCfg demoAbortRegistry demoNoCancel demoInput).final.error
        ≠ none ∧
    ∀ (l : Nat) (o2 : StageOutcome),
      (l, o2) ∈ (runOrchestrator demoCfg demoAbortRegistry demoNoCancel demoInput).invoked →
        l ≤ 0 :=
  C1_abort_threshold_fails_job demoCfg demoAbortRegistry demoNoCancel demoInput
    0 demoOutcome (by rw [demo_abort_invoked]; exact List.mem_singleton.mpr rfl)
    demo_abort_lt

/-- C4 (spec-modelled orchestrator and publisher): the progress values
persisted on the Job record and the progress values observed in event order
by any subscriber of the progress stream are non-decreasing over the run. -/
theorem C4_progress_nondecreasing (cfg : OrchestratorConfig)
    (regs : List PipelineStage) (cancel : Nat → Bool) (input : List Item) :
    monoProgress ((runOrchestrator cfg regs cancel input).snaps.map
      JobRecord.progress) = true ∧
    monoProgress ((runOrchestrator cfg regs cancel input).events.map
      OrchestratorEvent.progress) = true := by
  have hloop := runLoop_progress cfg cancel regs regs.length 0 input
    { status := JobStatus.running, stageIdx := some 0,
      stageName := regs.head?.map PipelineStage.name, progress := 0, error := none }
    (by omega) (le_refl 0) (by simp) (by norm_num)
  have hev := runLoop_events_eq cfg cancel regs.length regs 0 input
    { status := JobStatus.running, stageIdx := some 0,
      stageName := regs.head?.map PipelineStage.name, progress := 0, error := none }
  constructor
  · simp only [runOrchestrator, List.map_cons]
    rw [monoProgress]
    simp only [Bool.and_eq_true, decide_eq_true_eq]
    exact ⟨le_refl 0, hloop.1⟩
  · simp only [runOrchestrator, List.map_cons]
    rw [hev]
    have hzero : (toEvent
        { status := JobStatus.running, stageIdx := some 0,
          stageName := regs.head?.map PipelineStage.name, progress := 0,
          error := none }).progress = (0 : ℚ) / 100 := rfl
    rw [hzero]
    have hmap : ((runLoop cfg cancel regs.length regs 0 input
        { status := JobStatus.running, stageIdx := some 0,
          stageName := regs.head?.map PipelineStage.name, progress := 0,
          error := none }).snaps.map toEvent).map OrchestratorEvent.progress =
        ((runLoop cfg cancel regs.length regs 0 input
        { status := JobStatus.running, stageIdx := some 0,
          stageName := regs.head?.map PipelineStage.name, progress := 0,
          error := none }).snaps.map JobRecord.progress).map (fun x => x / 100) := by
      simp [List.map_map, Function.comp, toEvent]
    rw [hmap]
    have := monoProgress_map_div _ hloop.1
    simpa using this

theorem demo_pass_ratio (nm : String) (items : List Item) :
    failureRatio ((demoPassStage nm).process items) = 0 := by
  simp [failureRatio, demoPassStage]

theorem demo_pass_not_abort (nm : String) (items : List Item) :
    ¬ demoCfg.abortThreshold < failureRatio ((demoPassStage nm).process items) := by
  rw [demo_pass_ratio]
  norm_num [demoCfg]

/-- C5 as stated is false against the design document: after the first of two
stages, the Job record persists progress 50 on the 0-100 scale, but the event
streamed at the same point carries the fraction one half, on the 0-1 scale of
the documented SSE payload, not the value 50 on the record scale. -/
theorem C5_counterexample_streamed_scale :
    (runOrchestrator demoCfg demoPassRegistry demoNoCancel demoInput).snaps.map
        JobRecord.progress = [0, 0, 50, 100] ∧
    (runOrchestrator demoCfg demoPassRegistry demoNoCancel demoInput).events.map
        OrchestratorEvent.progress = [0, 1 / 2, 1] ∧
    ((1 : ℚ) / 2) ≠ (50 : ℚ) := by
  have h1 := demo_pass_not_abort "spider" demoInput
  simp only [runOrchestrator, demoPassRegistry]
  rw [runLoop_step_continue demoCfg demoNoCancel _ (demoPassStage "spider")
    (demoPassStage "refiner") [] 0 demoInput _ rfl rfl h1]
  rw [runLoop_step_last demoCfg demoNoCancel _ (demoPassStage "refiner") 1 _ _
    rfl rfl (demo_pass_not_abort "refiner" _)]
  refine ⟨?_, ?_, by norm_num⟩
  · simp only [List.map_cons, List.map_nil]
    norm_num
  · simp only [List.map_cons, List.map_nil, toEvent]
    norm_num

/-- C5 amended: the Job record progress always lies in the interval 0 to 100,
the streamed event progress is the corresponding fraction in the interval 0 to
1, and the substitution on the job detail page of a streamed value for the
record value therefore still yields a value in 0 to 100, though on the smaller
fraction scale. -/
theorem C5_amended_progress_bounds (cfg : OrchestratorConfig)
    (regs : List PipelineStage) (cancel : Nat → Bool) (input : List Item) :
    (∀ r ∈ (runOrchestrator cfg regs cancel input).snaps,
      0 ≤ r.progress ∧ r.progress ≤ 100) ∧
    (∀ e ∈ (runOrchestrator cfg regs cancel input).events,
      0 ≤ e.progress ∧ e.progress ≤ 1) ∧
    (∀ e ∈ (runOrchestrator cfg regs cancel input).events, ∀ pj : Option ℚ,
      0 ≤ currentProgress (some e.progress) pj ∧
        currentProgress (some e.progress) pj ≤ 100) := by
  have hloop := runLoop_progress cfg cancel regs regs.length 0 input
    { status := JobStatus.running, stageIdx := some 0,
      stageName := regs.head?.map PipelineStage.name, progress := 0, error := none }
    (by omega) (le_refl 0) (by simp) (by norm_num)
  have hev := runLoop_events_eq cfg cancel regs.length regs 0 input
    { status := JobStatus.running, stageIdx := some 0,
      stageName := regs.head?.map PipelineStage.name, progress := 0, error := none }
  have hsnapb : ∀ r ∈ (runOrchestrator cfg regs cancel input).snaps,
      0 ≤ r.progress ∧ r.progress ≤ 100 := by
    intro r hr
    simp only [runOrchestrator, List.mem_cons] at hr
    rcases hr with rfl | rfl | hr
    · norm_num
    · norm_num
    · exact hloop.2 r hr
  have hevb : ∀ e ∈ (runOrchestrator cfg regs cancel input).events,
      0 ≤ e.progress ∧ e.progress ≤ 1 := by
    intro e he
    simp only [runOrchestrator, List.mem_cons] at he
    rcases he with rfl | he
    · constructor <;> norm_num [toEvent]
    · rw [hev] at he
      rcases List.mem_map.mp he with ⟨r, hrmem, rfl⟩
      have hb := hloop.2 r hrmem
      constructor
      · simp only [toEvent]
        exact div_nonneg hb.1 (by norm_num)
      · simp only [toEvent]
        rw [div_le_one (by norm_num)]
        linarith [hb.2]
  refine ⟨hsnapb, hevb, ?_⟩
  intro e he pj
  have hb := hevb e he
  exact ⟨hb.1, by have := hb.2; simp only [currentProgress]; linarith⟩

/-- Witness for C5 amended at the first streamed event of a concrete run. -/
theorem C5_amended_progress_bounds_witness :
    0 ≤ (toEvent demoRunningJob).progress ∧ (toEvent demoRunningJob).progress ≤ 1 :=
  (C5_amended_progress_bounds demoCfg demoPassRegistry demoNoCancel
      demoInput).2.1 (toEvent demoRunningJob)
    (by simp only [runOrchestrator]; exact List.mem_cons_self _ _)

/-- C6: requesting cancellation at a stage boundary of a running job ends the
run with terminal status Cancelled and no error recorded, the cancel
operation goes through the request helper and returns the updated Job on an
ok response rather than throwing, and the UI offers cancellation exactly for
jobs whose status is running. -/
theorem C6_cancellation_is_cancelled_not_error :
    (∀ (cfg : OrchestratorConfig) (cancel : Nat → Bool) (total i : Nat)
      (s : PipelineStage) (rest : List PipelineStage) (items : List Item)
      (j : JobRecord), cancel i = true →
      (runLoop cfg cancel total (s :: rest) i items j).final
        = { j with status := JobStatus.cancelled }) ∧
    (∀ (cfg : OrchestratorConfig) (s : PipelineStage) (rest : List PipelineStage)
      (cancel : Nat → Bool) (input : List Item), cancel 0 = true →
      (runOrchestrator cfg (s :: rest) cancel input).final.status
          = JobStatus.cancelled ∧
      (runOrchestrator cfg (s :: rest) cancel input).final.error = none) ∧
    (∀ st : JobStatus, cancelOffered st = true ↔ st = JobStatus.running) ∧
    (("cancelJob", FetchMechanism.requestHelper) ∈ apiOperations) ∧
    (∀ r : HttpResponse, r.ok = true → request r = Except.ok r.bodyText) := by
  refine ⟨?_, ?_, by decide, by decide, fun r h => by simp [request, h]⟩
  · intro cfg cancel total i s rest items j hc
    exact runLoop_cancelled cfg cancel total s rest i items j hc
  · intro cfg s rest cancel input hc
    simp only [runOrchestrator]
    rw [runLoop_cancelled cfg cancel _ s rest 0 input _ hc]
    exact ⟨rfl, rfl⟩

/-- Witness for C6 at a concrete cancelled run and ok response. -/
theorem C6_cancellation_witness :
    ((runOrchestrator demoCfg demoPassRegistry demoCancelNow demoInput).final.status
        = JobStatus.cancelled ∧
      (runOrchestrator demoCfg demoPassRegistry demoCancelNow demoInput).final.error
        = none) ∧
    request { ok := true, bodyText := "job", detail := "" } = Except.ok "job" :=
  ⟨C6_cancellation_is_cancelled_not_error.2.1 demoCfg (demoPassStage "spider")
      [demoPassStage "refiner"] demoCancelNow demoInput rfl,
    C6_cancellation_is_cancelled_not_error.2.2.2.2
      { ok := true, bodyText := "job", detail := "" } rfl⟩

/-- C7: every persisted status is one of the five enum values, and the
sequence of persisted records follows the state machine Pending to
Running(stage i) to Running(stage i+1) or a terminal status, with no
transition skipping an intermediate state. -/
theorem C7_status_enum_and_machine (cfg : OrchestratorConfig)
    (regs : List PipelineStage) (cancel : Nat → Bool) (input : List Item) :
    (∀ r ∈ (runOrchestrator cfg regs cancel input).snaps,
      r.status = JobStatus.pending ∨ r.status = JobStatus.running ∨
      r.status = JobStatus.completed ∨ r.status = JobStatus.failed ∨
      r.status = JobStatus.cancelled) ∧
    machineOk ((runOrchestrator cfg regs cancel input).snaps) = true := by
  constructor
  · intro r _
    cases hst : r.status <;> simp [hst]
  · simp only [runOrchestrator]
    rw [machineOk]
    simp only [Bool.and_eq_true]
    constructor
    · rfl
    · exact runLoop_machine cfg cancel regs.length regs 0 input _ rfl rfl

/-- Witness for C7 at the Admission-written Pending record of a concrete run. -/
theorem C7_status_enum_and_machine_witness :
    (demoPendingJob.status = JobStatus.pending ∨
      demoPendingJob.status = JobStatus.running ∨
      demoPendingJob.status = JobStatus.completed ∨
      demoPendingJob.status = JobStatus.failed ∨
      demoPendingJob.status = JobStatus.cancelled) ∧
    machineOk ((runOrchestrator demoCfg demoPassRegistry demoNoCancel
      demoInput).snaps) = true :=
  ⟨(C7_status_enum_and_machine demoCfg demoPassRegistry demoNoCancel demoInput).1
      demoPendingJob
      (by simp only [runOrchestrator]; exact List.mem_cons_self _ _),
    (C7_status_enum_and_machine demoCfg demoPassRegistry demoNoCancel
      demoInput).2⟩

/-- C8: ledger appends are idempotent for the latest-outcome view, and an
append never updates an existing entry in place: the prior log is preserved
unchanged as the prefix of the new log. -/
theorem C8_ledger_append_idempotent (ledger : List LedgerEntry) (e : LedgerEntry)
    (k : LedgerKey) :
    latestOutcome (record (record ledger e) e) k = latestOutcome (record ledger e) k ∧
    (record ledger e).take ledger.length = ledger ∧
    (record ledger e).length = ledger.length + 1 := by
  refine ⟨?_, ?_, by simp [record]⟩
  · simp only [latestOutcome, record, List.reverse_append, List.reverse_cons,
      List.reverse_nil, List.nil_append, List.cons_append, List.singleton_append]
    by_cases h : (e.key == k) = true
    · rw [List.find?_cons_of_pos (p := fun x : LedgerEntry => x.key == k) _ h,
        List.find?_cons_of_pos (p := fun x : LedgerEntry => x.key == k) _ h]
    · rw [List.find?_cons_of_neg (p := fun x : LedgerEntry => x.key == k) _ h,
        List.find?_cons_of_neg (p := fun x : LedgerEntry => x.key == k) _ h]
  · simp [record]

end AIDataFactory
